import Mathlib

/-!
Verification of the windowed viewport cache of the vuu repository.

Embedded source files:
* `vuu-ui/packages/vuu-datatable/src/useDataSource.ts` — the `MovingWindow`
  class and the `useDataSource` hook (message handler, frame-clocked refresh).
* the scroll hook (`useScroll` / `handleScroll`).

JavaScript arrays with holes are modelled as `List (Option α)`; an index
assignment beyond the current length extends the array with holes, as in JS.
Row indices are natural numbers (the spec requires non-negative integers).
-/

namespace Vuu

/-- JS semantics of `arr[i] = a`: if `i < arr.length` the slot is overwritten,
otherwise the array is extended with holes up to `i` and `a` is placed there,
so the new length is `i + 1`. -/
def jsArraySet (l : List (Option α)) (i : Nat) (a : α) : List (Option α) :=
  if i < l.length then l.set i (some a)
  else l ++ List.replicate (i - l.length) none ++ [some a]

/-- A data-source row.  In the source a row is a JS array whose element 0 is
the row's absolute dataset index (`const [index] = data` in `MovingWindow.add`)
and whose `RENDER_IDX` metadata field holds the render-slot index used by the
`byKey` comparator; the remaining cells are opaque payload. -/
structure DataSourceRow where
  index : Nat
  renderIdx : Nat
  cells : List Int
deriving DecidableEq, Repr

/-- Modelled from the spec: `WindowRange` comes from `@finos/vuu-utils`, whose
source is not part of this embedding.  Per the spec it is a half-open interval
`[from, to)` over absolute row indices; `isWithin` is membership and
`overlap(newFrom, newTo)` returns the intersection of the current range with
the candidate range.  Field names: `from` is a reserved word in Lean, so the
source's `from`/`to` are rendered `wFrom`/`wTo`. -/
structure WindowRange where
  wFrom : Nat
  wTo : Nat
deriving DecidableEq, Repr

/-- Modelled from the spec: half-open membership `from <= i < to`. -/
def WindowRange.isWithin (r : WindowRange) (index : Nat) : Bool :=
  decide (r.wFrom ≤ index ∧ index < r.wTo)

/-- Modelled from the spec: the intersection of the current range with the
candidate range `[from, to)`, as a `(from, to)` pair (empty when the first
component is not below the second, in which case the copy loop in `setRange`
runs zero times). -/
def WindowRange.overlap (r : WindowRange) (f t : Nat) : Nat × Nat :=
  (max r.wFrom f, min r.wTo t)

/-- The `MovingWindow` class of `useDataSource.ts`: a range-indexed row buffer.
`data` is 0-based internally; `range.from` is the offset. -/
structure MovingWindow where
  data : List (Option DataSourceRow)
  rowCount : Nat
  range : WindowRange
deriving DecidableEq, Repr

namespace MovingWindow

/-- The constructor: `new MovingWindow({from, to})` allocates
`new Array(to - from)` (all holes) and sets `rowCount = 0`. -/
def mk' (f t : Nat) : MovingWindow :=
  { data := List.replicate (t - f) none
    rowCount := 0
    range := ⟨f, t⟩ }

/-- `setRowCount = (rowCount) => { if (rowCount < this.data.length)
this.data.length = rowCount; this.rowCount = rowCount }`.  Assigning a smaller
`length` truncates the JS array. -/
def setRowCount (w : MovingWindow) (rowCount : Nat) : MovingWindow :=
  { w with
    data := if rowCount < w.data.length then w.data.take rowCount else w.data
    rowCount := rowCount }

/-- `add(data)`: reads the row's index from element 0; if within range, stores
the row at `index - range.from`; otherwise a silent no-op. -/
def add (w : MovingWindow) (row : DataSourceRow) : MovingWindow :=
  if w.range.isWithin row.index then
    { w with data := jsArraySet w.data (row.index - w.range.wFrom) row }
  else w

/-- `getAtIndex(index)`: the row when `index` is within range and the slot is
populated, otherwise `undefined` (absent). -/
def getAtIndex (w : MovingWindow) (index : Nat) : Option DataSourceRow :=
  if w.range.isWithin index then w.data.getD (index - w.range.wFrom) none
  else none

/-- `isWithinRange(index)` delegates to the range. -/
def isWithinRange (w : MovingWindow) (index : Nat) : Bool :=
  w.range.isWithin index

/-- `setRange(from, to)`: no-op when the range is unchanged; otherwise copies
the populated slots of the overlap of old and new range into a fresh buffer of
size `to - from` and installs the new range. -/
def setRange (w : MovingWindow) (f t : Nat) : MovingWindow :=
  if f ≠ w.range.wFrom ∨ t ≠ w.range.wTo then
    let ov := w.range.overlap f t
    let newData :=
      (List.range' ov.1 (ov.2 - ov.1)).foldl
        (fun acc i =>
          match w.getAtIndex i with
          | some d => jsArraySet acc (i - f) d
          | none => acc)
        (List.replicate (t - f) none)
    { w with data := newData, range := ⟨f, t⟩ }
  else w

end MovingWindow

/-- The `byKey` comparator: `(row1, row2) => row1[RENDER_IDX] - row2[RENDER_IDX]`,
an ascending numeric sort key on the render-slot field. -/
def byKey (r1 r2 : DataSourceRow) : Bool :=
  r1.renderIdx ≤ r2.renderIdx

/-- `dataWindow.data.slice().sort(byKey)`: the materialized window contents in
render-slot order.  JS `sort` moves holes to the end of the copied array and
calls the comparator only on present elements; the materialized list is the
populated rows sorted ascending by `renderIdx` (trailing holes carry no data
and are not modelled). -/
def materialize (w : MovingWindow) : List DataSourceRow :=
  (w.data.filterMap id).mergeSort byKey

/-- Config message kinds recognised by `isConfigMessage`. -/
inductive ConfigKind
  | aggregate | filter | groupBy | sort
deriving DecidableEq

/-- Messages delivered to `datasourceMessageHandler`.  A `viewport-update`
carries an optional numeric `size` and an optional `rows` array. -/
inductive DSMessage
  | subscribed
  | viewportUpdate (size : Option Nat) (rows : Option (List DataSourceRow))
  | config (kind : ConfigKind)

/-- The controller state owned by the `useDataSource` hook: the moving window
(`dataWindow`), the materialized list ref (`data.current`) and the dirty flag
(`hasUpdated.current`).  The collaborator callbacks (`onSubscribed`,
`onSizeChange`, `onConfigChange`) and the external source are outside this
state. -/
structure ControllerState where
  window : MovingWindow
  dataCurrent : List DataSourceRow
  hasUpdated : Bool
deriving DecidableEq

/-- `setData(updates)`: folds each row into the window via `add`, rebuilds
`data.current` as the sorted copy of the window contents and sets the dirty
flag. -/
def setData (s : ControllerState) (updates : List DataSourceRow) : ControllerState :=
  let w := updates.foldl (fun w r => w.add r) s.window
  { window := w, dataCurrent := materialize w, hasUpdated := true }

/-- `datasourceMessageHandler`: `subscribed` and config messages only invoke
external callbacks; a `viewport-update` applies `setRowCount` when `size` is a
number, then `setData` when `rows` is present, else re-sorts and republishes
the buffer when (and only when) `size` was a number. -/
def datasourceMessageHandler (s : ControllerState) (m : DSMessage) : ControllerState :=
  match m with
  | .subscribed => s
  | .viewportUpdate size rows =>
    let s1 :=
      match size with
      | some n => { s with window := s.window.setRowCount n }
      | none => s
    match rows with
    | some rs => setData s1 rs
    | none =>
      match size with
      | some _ => { s1 with dataCurrent := materialize s1.window, hasUpdated := true }
      | none => s1
  | .config _ => s

/-- The frame-clocked part of the hook: the controller state plus the mounted
flag (`isMounted.current`) and the log of publishes performed by
`forceUpdate` (each publish exposes the `data.current` of that moment). -/
structure FrameState where
  ctrl : ControllerState
  mounted : Bool
  published : List (List DataSourceRow)
deriving DecidableEq

/-- One run of the `refreshIfUpdated` frame-clock callback: when mounted and
the dirty flag is set, publish once (`forceUpdate`) and clear the flag;
otherwise do nothing (the callback always reschedules itself, which the trace
model leaves implicit). -/
def tickStep (s : FrameState) : FrameState :=
  if s.mounted then
    if s.ctrl.hasUpdated then
      { s with
        ctrl := { s.ctrl with hasUpdated := false }
        published := s.published ++ [s.ctrl.dataCurrent] }
    else s
  else s

/-- Events interleaved between frame-clock ticks: a row-update ingestion
(`setData` via a `viewport-update` carrying rows) or a tick. -/
inductive ControllerEvent
  | ingest (rows : List DataSourceRow)
  | tick

/-- Small-step semantics of the controller trace. -/
def step (s : FrameState) : ControllerEvent → FrameState
  | .ingest rows => { s with ctrl := setData s.ctrl rows }
  | .tick => tickStep s

/-- A trace is a fold of events. -/
def runEvents (s : FrameState) (es : List ControllerEvent) : FrameState :=
  es.foldl step s

/-! ### The scroll translator (`useScroll` / `handleScroll`)

The scroll arithmetic involves division, and the spec's edge cases exercise
division by zero, so JS numbers are embedded exactly: a finite value is a
rational, and `NaN`, `Infinity` and `-Infinity` are explicit constructors with
IEEE propagation rules for the operators the source uses. -/

/-- A JS number: finite (exact rational), `NaN`, or an infinity. -/
inductive JSNum
  | num (q : ℚ)
  | nan
  | posInf
  | negInf
deriving DecidableEq, Repr

/-- JS `<`: false whenever an operand is `NaN`. -/
def jsLt : JSNum → JSNum → Bool
  | .num a, .num b => decide (a < b)
  | .num _, .posInf => true
  | .negInf, .num _ => true
  | .negInf, .posInf => true
  | _, _ => false

/-- JS `>`: false whenever an operand is `NaN`. -/
def jsGt (a b : JSNum) : Bool :=
  jsLt b a

/-- JS unary minus. -/
def jsNeg : JSNum → JSNum
  | .num q => .num (-q)
  | .nan => .nan
  | .posInf => .negInf
  | .negInf => .posInf

/-- JS `+` on numbers: `NaN` is absorbing and opposite infinities give `NaN`. -/
def jsAdd : JSNum → JSNum → JSNum
  | .num a, .num b => .num (a + b)
  | .nan, _ => .nan
  | _, .nan => .nan
  | .posInf, .negInf => .nan
  | .negInf, .posInf => .nan
  | .posInf, _ => .posInf
  | _, .posInf => .posInf
  | .negInf, _ => .negInf
  | _, .negInf => .negInf

/-- JS `-`. -/
def jsSub (a b : JSNum) : JSNum :=
  jsAdd a (jsNeg b)

/-- JS `*`: `NaN` absorbing; an infinity times zero is `NaN`. -/
def jsMul : JSNum → JSNum → JSNum
  | .num a, .num b => .num (a * b)
  | .nan, _ => .nan
  | _, .nan => .nan
  | .posInf, .num b => if 0 < b then .posInf else if b < 0 then .negInf else .nan
  | .num a, .posInf => if 0 < a then .posInf else if a < 0 then .negInf else .nan
  | .negInf, .num b => if 0 < b then .negInf else if b < 0 then .posInf else .nan
  | .num a, .negInf => if 0 < a then .negInf else if a < 0 then .posInf else .nan
  | .posInf, .posInf => .posInf
  | .negInf, .negInf => .posInf
  | .posInf, .negInf => .negInf
  | .negInf, .posInf => .negInf

/-- JS `/`: division by zero gives a signed infinity (or `NaN` for `0/0`). -/
def jsDiv : JSNum → JSNum → JSNum
  | .nan, _ => .nan
  | _, .nan => .nan
  | .num a, .num b =>
    if b = 0 then (if 0 < a then .posInf else if a < 0 then .negInf else .nan)
    else .num (a / b)
  | .posInf, .num b => if b < 0 then .negInf else .posInf
  | .negInf, .num b => if b < 0 then .posInf else .negInf
  | .num _, .posInf => .num 0
  | .num _, .negInf => .num 0
  | _, _ => .nan

/-- JS `Math.floor`: identity on `NaN` and infinities. -/
def jsFloor : JSNum → JSNum
  | .num q => .num (⌊q⌋ : ℚ)
  | x => x

/-- JS `Math.abs`. -/
def jsAbs : JSNum → JSNum
  | .num q => .num |q|
  | .nan => .nan
  | _ => .posInf

/-- JS `Math.max`: `NaN` when an argument is `NaN`. -/
def jsMax (a b : JSNum) : JSNum :=
  match a, b with
  | .nan, _ => .nan
  | _, .nan => .nan
  | x, y => if jsLt x y then y else x

/-- The `ScrollHookProps` geometry parameters (all required non-negative
integers per the spec; the `table` ref holds the mirrored DOM element, which
is outside the numeric model). -/
structure ScrollParams where
  bufferCount : Nat
  dataRowCount : Nat
  rowHeight : Nat
  visibleRowCount : Nat

/-- `renderedRowsCount = visibleRowCount + 2 * bufferCount`. -/
def ScrollParams.renderedRowsCount (p : ScrollParams) : Nat :=
  p.visibleRowCount + 2 * p.bufferCount

/-- `bufferHeight = bufferCount * rowHeight`. -/
def ScrollParams.bufferHeight (p : ScrollParams) : Nat :=
  p.bufferCount * p.rowHeight

/-- The state owned by `useScroll`: the committed anchor
(`scrollTopRef.current`, initially 0) and the published render-range start
(`firstRowIndex`, initially 0).  `lastRowIndex` is derived as
`firstRowIndex + renderedRowsCount`. -/
structure ScrollState where
  scrollTopRef : JSNum
  firstRowIndex : JSNum
deriving DecidableEq, Repr

/-- The initial `useScroll` state. -/
def initialScrollState : ScrollState :=
  ⟨.num 0, .num 0⟩

/-- The backward-snapping `while` loop on finite operands:
`while (anchor - scrollTop > bufferHeight) anchor -= bufferHeight`.
The guard `0 < bh` is the termination condition of the JS loop; when
`bh = 0` and `a - s > 0` the JS loop does not terminate, a configuration
unreachable from the initial anchor under non-negative scroll positions. -/
def snapBackQ (bh s a : ℚ) : ℚ :=
  if h : 0 < bh ∧ bh < a - s then snapBackQ bh s (a - bh) else a
termination_by (⌈(a - s) / bh⌉).toNat
decreasing_by
  rcases h with ⟨hb, hd⟩
  have h1 : (a - bh - s) / bh = (a - s) / bh - 1 := by
    field_simp
    ring
  rw [h1, Int.ceil_sub_one]
  have h2 : (1 : ℚ) < (a - s) / bh := (one_lt_div hb).mpr hd
  have h3 : (1 : ℤ) < ⌈(a - s) / bh⌉ := Int.lt_ceil.mpr (by exact_mod_cast h2)
  omega

/-- The backward-snapping loop lifted to JS numbers.  When the anchor or the
scroll position is `NaN` the loop guard `anchor - scrollTop > bufferHeight`
is false at once, so the anchor is unchanged; infinite operands (which would
make the JS loop diverge) are unreachable and modelled as immediate exit. -/
def snapBackLoop (bh : ℚ) (scrollTop a : JSNum) : JSNum :=
  match a, scrollTop with
  | .num qa, .num qs => .num (snapBackQ bh qs qa)
  | _, _ => a

/-- `handleScroll(e)`: the scroll-event handler of `useScroll`, as a function
of the geometry parameters, the hook state and the event's `scrollTop`.  The
`scrollLeft`/`scrollTop` mirroring onto the secondary `table` element is a
DOM side effect outside the numeric state.  `setFirstRowIndex` is invoked
only in the two triggered branches; otherwise the state is kept. -/
def handleScroll (p : ScrollParams) (st : ScrollState) (scrollTop : JSNum) : ScrollState :=
  let bh : JSNum := .num (p.bufferHeight : ℚ)
  let rrc : JSNum := .num (p.renderedRowsCount : ℚ)
  let drc : JSNum := .num (p.dataRowCount : ℚ)
  let scrolledBy := jsSub scrollTop st.scrollTopRef
  let isForwards := jsGt scrolledBy (.num 0)
  if isForwards && (jsGt (jsAbs scrolledBy) bh || jsLt scrollTop bh) then
    let anchor := jsMul (jsFloor (jsDiv scrollTop bh)) bh
    let fri := jsMax (.num 0)
      (jsSub (jsFloor (jsDiv anchor (.num (p.rowHeight : ℚ)))) (.num (p.bufferCount : ℚ)))
    { scrollTopRef := anchor
      firstRowIndex :=
        if jsGt (jsAdd fri rrc) drc then
          .num ((p.dataRowCount : ℚ) - (p.renderedRowsCount : ℚ))
        else fri }
  else if !isForwards && (jsGt (jsAbs scrolledBy) bh || jsLt scrollTop bh) then
    let anchor := snapBackLoop (p.bufferHeight : ℚ) scrollTop st.scrollTopRef
    let fri := jsMax (.num 0)
      (jsSub (jsFloor (jsDiv anchor (.num (p.rowHeight : ℚ)))) (.num (p.bufferCount : ℚ)))
    { scrollTopRef := anchor
      firstRowIndex :=
        if jsGt (jsAdd fri rrc) drc then
          .num ((p.dataRowCount : ℚ) - (p.renderedRowsCount : ℚ))
        else fri }
  else st

/-- The slot-index invariant of the spec: every populated buffer slot `i`
stores a row whose index field equals `range.from + i`. -/
def SlotInvariant (w : MovingWindow) : Prop :=
  ∀ i r, w.data.getD i none = some r → r.index = w.range.wFrom + i

/-- The window states reachable from a constructor call by the three
mutations. -/
inductive Reachable : MovingWindow → Prop
  | init (f t : Nat) : Reachable (MovingWindow.mk' f t)
  | add (w : MovingWindow) (r : DataSourceRow) : Reachable w → Reachable (w.add r)
  | setRange (w : MovingWindow) (f t : Nat) : Reachable w → Reachable (w.setRange f t)
  | setRowCount (w : MovingWindow) (n : Nat) : Reachable w → Reachable (w.setRowCount n)

end Vuu

/-! ## Helper lemmas -/

namespace Vuu

theorem jsArraySet_length (l : List (Option α)) (i : Nat) (a : α) :
    (jsArraySet l i a).length = max l.length (i + 1) := by
  unfold jsArraySet
  split
  · simp; omega
  · simp; omega

theorem jsArraySet_getD_self (l : List (Option α)) (i : Nat) (a : α) :
    (jsArraySet l i a).getD i none = some a := by
  unfold jsArraySet
  split
  · rw [List.getD_eq_getElem?_getD, List.getElem?_set_self]
    · simp
    · assumption
  · rename_i h
    rw [List.getD_eq_getElem?_getD, List.getElem?_append_right (by simp; omega)]
    have h1 : (l ++ List.replicate (i - l.length) none).length = i := by simp; omega
    rw [h1, Nat.sub_self]
    simp

theorem jsArraySet_getD_other (l : List (Option α)) (i j : Nat) (a : α) (hij : j ≠ i) :
    (jsArraySet l i a).getD j none = l.getD j none := by
  unfold jsArraySet
  split
  · rw [List.getD_eq_getElem?_getD, List.getElem?_set_ne (by omega), ← List.getD_eq_getElem?_getD]
  · rename_i h
    rw [List.getD_eq_getElem?_getD, List.getD_eq_getElem?_getD]
    by_cases hj : j < l.length
    · rw [List.getElem?_append_left (by simp; omega), List.getElem?_append_left hj]
    · rw [List.getElem?_eq_none (l := l) (by omega)]
      by_cases hji : j < i
      · rw [List.getElem?_append_left (by simp; omega),
            List.getElem?_append_right (by omega)]
        have h2 : j - l.length < i - l.length := by omega
        simp [List.getElem?_replicate, h2]
      · rw [List.getElem?_eq_none (by simp; omega)]

@[simp] theorem jsNeg_num (a : ℚ) : jsNeg (.num a) = .num (-a) := rfl

@[simp] theorem jsAdd_num (a b : ℚ) : jsAdd (.num a) (.num b) = .num (a + b) := rfl

@[simp] theorem jsSub_num (a b : ℚ) : jsSub (.num a) (.num b) = .num (a - b) := by
  simp [jsSub, sub_eq_add_neg]

@[simp] theorem jsLt_num (a b : ℚ) : jsLt (.num a) (.num b) = decide (a < b) := rfl

@[simp] theorem jsGt_num (a b : ℚ) : jsGt (.num a) (.num b) = decide (b < a) := rfl

@[simp] theorem jsAbs_num (a : ℚ) : jsAbs (.num a) = .num |a| := rfl

@[simp] theorem jsMul_num (a b : ℚ) : jsMul (.num a) (.num b) = .num (a * b) := rfl

@[simp] theorem jsFloor_num (a : ℚ) : jsFloor (.num a) = .num (⌊a⌋ : ℚ) := rfl

theorem jsDiv_num {a b : ℚ} (h : b ≠ 0) : jsDiv (.num a) (.num b) = .num (a / b) := by
  simp [jsDiv, h]

@[simp] theorem jsMax_num (a b : ℚ) : jsMax (.num a) (.num b) = .num (max a b) := by
  rcases le_or_lt b a with h | h
  · simp [jsMax, jsLt, not_lt.mpr h, max_eq_left h]
  · simp [jsMax, jsLt, h, max_eq_right h.le]

theorem jsDiv_num_zero_pos {a : ℚ} (h : 0 < a) : jsDiv (.num a) (.num 0) = .posInf := by
  simp [jsDiv, h]

@[simp] theorem jsDiv_nan_left (x : JSNum) : jsDiv .nan x = .nan := by
  cases x <;> rfl

@[simp] theorem jsDiv_nan_right (x : JSNum) : jsDiv x .nan = .nan := by
  cases x <;> rfl

@[simp] theorem jsFloor_nan : jsFloor .nan = .nan := rfl

@[simp] theorem jsFloor_posInf : jsFloor .posInf = .posInf := rfl

@[simp] theorem jsMul_posInf_num_zero : jsMul .posInf (.num 0) = .nan := by
  simp [jsMul]

@[simp] theorem jsAdd_nan_left (x : JSNum) : jsAdd .nan x = .nan := by
  cases x <;> rfl

@[simp] theorem jsAdd_nan_right (x : JSNum) : jsAdd x .nan = .nan := by
  cases x <;> rfl

@[simp] theorem jsNeg_nan : jsNeg .nan = .nan := rfl

@[simp] theorem jsSub_nan_left (x : JSNum) : jsSub .nan x = .nan := by
  cases x <;> simp [jsSub, jsNeg, jsAdd]

@[simp] theorem jsSub_nan_right (x : JSNum) : jsSub x .nan = .nan := by
  cases x <;> rfl

@[simp] theorem jsAbs_nan : jsAbs .nan = .nan := rfl

@[simp] theorem jsLt_nan_left (x : JSNum) : jsLt .nan x = false := by
  cases x <;> rfl

@[simp] theorem jsLt_nan_right (x : JSNum) : jsLt x .nan = false := by
  cases x <;> rfl

@[simp] theorem jsGt_nan_left (x : JSNum) : jsGt .nan x = false := by
  simp [jsGt]

@[simp] theorem jsGt_nan_right (x : JSNum) : jsGt x .nan = false := by
  simp [jsGt]

@[simp] theorem jsMax_nan_right (x : JSNum) : jsMax x .nan = .nan := by
  cases x <;> rfl

@[simp] theorem jsMax_nan_left (x : JSNum) : jsMax .nan x = .nan := by
  cases x <;> rfl

theorem getD_replicate_none (n j : Nat) :
    (List.replicate n (none : Option α)).getD j none = none := by
  rw [List.getD_eq_getElem?_getD]
  by_cases h : j < n
  · simp [List.getElem?_replicate, h]
  · rw [List.getElem?_eq_none (by simpa using not_lt.mp h)]
    rfl

/-- Slot `k - f` of the `setRange` copy loop: written with the surviving row
when `k` is a loop index, untouched otherwise. -/
theorem copyFold_getD (w : MovingWindow) (f : Nat) (xs : List Nat)
    (acc : List (Option DataSourceRow)) (k : Nat)
    (hf : ∀ i ∈ xs, f ≤ i) (hk : f ≤ k) :
    (xs.foldl (fun acc i =>
        match w.getAtIndex i with
        | some d => jsArraySet acc (i - f) d
        | none => acc) acc).getD (k - f) none =
      if k ∈ xs ∧ (w.getAtIndex k).isSome then w.getAtIndex k
      else acc.getD (k - f) none := by
  induction xs generalizing acc with
  | nil => simp
  | cons x xs ih =>
    have hfx : f ≤ x := hf x (List.mem_cons_self x xs)
    have hfs : ∀ i ∈ xs, f ≤ i := fun i hi => hf i (List.mem_cons_of_mem x hi)
    rw [List.foldl_cons, ih _ hfs]
    cases hw : w.getAtIndex x with
    | some d =>
      by_cases hkx : k = x
      · subst hkx
        simp only [hw, Option.isSome_some, and_true, List.mem_cons, eq_self_iff_true,
          true_or, if_true]
        by_cases hmem : k ∈ xs
        · rw [if_pos hmem]
        · rw [if_neg hmem]
          exact jsArraySet_getD_self acc (k - f) d
      · simp only [hw]
        rw [jsArraySet_getD_other _ _ _ _ (by omega : k - f ≠ x - f)]
        simp [List.mem_cons, hkx]
    | none =>
      by_cases hkx : k = x
      · subst hkx
        simp [hw]
      · simp [hw, List.mem_cons, hkx]

/-- The copy loop never changes the buffer length when every written slot is
in bounds. -/
theorem copyFold_length (w : MovingWindow) (f : Nat) (xs : List Nat)
    (acc : List (Option DataSourceRow)) (h : ∀ i ∈ xs, i - f < acc.length) :
    (xs.foldl (fun acc i =>
        match w.getAtIndex i with
        | some d => jsArraySet acc (i - f) d
        | none => acc) acc).length = acc.length := by
  induction xs generalizing acc with
  | nil => rfl
  | cons x xs ih =>
    have hx : x - f < acc.length := h x (List.mem_cons_self x xs)
    rw [List.foldl_cons]
    cases hw : w.getAtIndex x with
    | some d =>
      simp only [hw]
      rw [ih _ (by intro i hi; rw [jsArraySet_length]; have := h i (List.mem_cons_of_mem x hi); omega)]
      rw [jsArraySet_length]
      omega
    | none =>
      simp only [hw]
      exact ih _ (fun i hi => h i (List.mem_cons_of_mem x hi))

/-- Characterization of the fresh buffer built by a changed `setRange`: the
slot for absolute index `k` holds exactly the old window's row at `k` when `k`
is in the overlap of old and new range, and is a hole otherwise. -/
theorem setRange_data_getD (w : MovingWindow) (f t k : Nat)
    (hch : f ≠ w.range.wFrom ∨ t ≠ w.range.wTo) (hk : f ≤ k) :
    (w.setRange f t).data.getD (k - f) none =
      if max w.range.wFrom f ≤ k ∧ k < min w.range.wTo t then w.getAtIndex k
      else none := by
  unfold MovingWindow.setRange
  rw [if_pos hch]
  simp only [WindowRange.overlap]
  rw [copyFold_getD w f _ _ k
      (by intro i hi
          have := List.mem_range'_1.mp hi
          omega)
      hk]
  have hmem : k ∈ List.range' (max w.range.wFrom f) (min w.range.wTo t - max w.range.wFrom f) ↔
      (max w.range.wFrom f ≤ k ∧ k < min w.range.wTo t) := by
    rw [List.mem_range'_1]
    omega
  by_cases hov : max w.range.wFrom f ≤ k ∧ k < min w.range.wTo t
  · rw [if_pos hov]
    cases hw : w.getAtIndex k with
    | some d => simp [hmem.mpr hov, hw]
    | none => simp [hmem.mpr hov, hw, getD_replicate_none]
  · rw [if_neg hov]
    rw [if_neg (by rw [hmem]; tauto)]
    exact getD_replicate_none _ _

theorem setRange_range (w : MovingWindow) (f t : Nat)
    (hch : f ≠ w.range.wFrom ∨ t ≠ w.range.wTo) :
    (w.setRange f t).range = ⟨f, t⟩ := by
  unfold MovingWindow.setRange
  rw [if_pos hch]

theorem setRange_data (w : MovingWindow) (f t : Nat)
    (hch : f ≠ w.range.wFrom ∨ t ≠ w.range.wTo) :
    (w.setRange f t).data =
      (List.range' (max w.range.wFrom f) (min w.range.wTo t - max w.range.wFrom f)).foldl
        (fun acc i =>
          match w.getAtIndex i with
          | some d => jsArraySet acc (i - f) d
          | none => acc)
        (List.replicate (t - f) none) := by
  unfold MovingWindow.setRange
  rw [if_pos hch]
  rfl

theorem setRange_getAtIndex (w : MovingWindow) (f t k : Nat)
    (hch : f ≠ w.range.wFrom ∨ t ≠ w.range.wTo) :
    (w.setRange f t).getAtIndex k =
      if max w.range.wFrom f ≤ k ∧ k < min w.range.wTo t then w.getAtIndex k
      else none := by
  have hrange := setRange_range w f t hch
  unfold MovingWindow.getAtIndex
  rw [hrange]
  by_cases hin : f ≤ k ∧ k < t
  · rw [if_pos (by simpa [WindowRange.isWithin] using hin)]
    show (w.setRange f t).data.getD (k - f) none = _
    rw [setRange_data_getD w f t k hch hin.1]
    rfl
  · rw [if_neg (by simpa [WindowRange.isWithin] using hin)]
    rw [if_neg (by omega)]

theorem add_range (w : MovingWindow) (r : DataSourceRow) :
    (w.add r).range = w.range := by
  unfold MovingWindow.add
  split <;> rfl

theorem slotInvariant_mk (f t : Nat) : SlotInvariant (MovingWindow.mk' f t) := by
  intro i r h
  simp [MovingWindow.mk', getD_replicate_none] at h

theorem slotInvariant_add (w : MovingWindow) (r : DataSourceRow)
    (h : SlotInvariant w) : SlotInvariant (w.add r) := by
  intro i d hd
  rw [add_range]
  unfold MovingWindow.add at hd
  by_cases hin : w.range.isWithin r.index = true
  · rw [if_pos hin] at hd
    change (jsArraySet w.data (r.index - w.range.wFrom) r).getD i none = some d at hd
    have hfr : w.range.wFrom ≤ r.index ∧ r.index < w.range.wTo := by
      simpa [WindowRange.isWithin] using hin
    by_cases hi : i = r.index - w.range.wFrom
    · subst hi
      rw [jsArraySet_getD_self] at hd
      obtain rfl := Option.some.inj hd
      omega
    · rw [jsArraySet_getD_other _ _ _ _ hi] at hd
      exact h i d hd
  · rw [if_neg hin] at hd
    exact h i d hd

theorem slotInvariant_setRange (w : MovingWindow) (f t : Nat)
    (h : SlotInvariant w) : SlotInvariant (w.setRange f t) := by
  by_cases hch : f ≠ w.range.wFrom ∨ t ≠ w.range.wTo
  · intro i d hd
    rw [setRange_range w f t hch]
    show d.index = f + i
    have hgd := setRange_data_getD w f t (f + i) hch (Nat.le_add_right f i)
    rw [Nat.add_sub_cancel_left] at hgd
    rw [hgd] at hd
    by_cases hov : max w.range.wFrom f ≤ f + i ∧ f + i < min w.range.wTo t
    · rw [if_pos hov] at hd
      unfold MovingWindow.getAtIndex at hd
      by_cases hin : w.range.isWithin (f + i) = true
      · rw [if_pos hin] at hd
        have h1 := h _ _ hd
        have h2 : w.range.wFrom ≤ f + i ∧ f + i < w.range.wTo := by
          simpa [WindowRange.isWithin] using hin
        omega
      · rw [if_neg hin] at hd
        simp at hd
    · rw [if_neg hov] at hd
      simp at hd
  · unfold MovingWindow.setRange
    rw [if_neg hch]
    exact h

theorem slotInvariant_setRowCount (w : MovingWindow) (n : Nat)
    (h : SlotInvariant w) : SlotInvariant (w.setRowCount n) := by
  intro i d hd
  show d.index = w.range.wFrom + i
  unfold MovingWindow.setRowCount at hd
  change (if n < w.data.length then w.data.take n else w.data).getD i none = some d at hd
  by_cases hlt : n < w.data.length
  · rw [if_pos hlt] at hd
    rw [List.getD_eq_getElem?_getD] at hd
    by_cases hi : i < n
    · rw [List.getElem?_take_of_lt hi] at hd
      exact h i d (by rw [List.getD_eq_getElem?_getD, hd])
    · rw [List.getElem?_eq_none (by simp; omega)] at hd
      simp at hd
  · rw [if_neg hlt] at hd
    exact h i d hd

/-! ## Claims -/

/-- C1: `setRange(f, t)` is a no-op when `(f, t)` equals the current range;
otherwise the range becomes `[f, t)`, every row populated at an absolute index
in the intersection of old and new range survives unchanged at slot `k - f`
of the new buffer (and via `getAtIndex`), and `getAtIndex` is absent at every
absolute index outside that intersection. -/
theorem c1_setRange_overlap_preservation (w : MovingWindow) (f t : Nat) :
    (f = w.range.wFrom ∧ t = w.range.wTo → w.setRange f t = w) ∧
    (¬(f = w.range.wFrom ∧ t = w.range.wTo) →
      (w.setRange f t).range = ⟨f, t⟩ ∧
      (∀ k r, max w.range.wFrom f ≤ k → k < min w.range.wTo t →
          w.getAtIndex k = some r →
          (w.setRange f t).data.getD (k - f) none = some r ∧
          (w.setRange f t).getAtIndex k = some r) ∧
      (∀ k, ¬(max w.range.wFrom f ≤ k ∧ k < min w.range.wTo t) →
          (w.setRange f t).getAtIndex k = none)) := by
  constructor
  · rintro ⟨hf, ht⟩
    unfold MovingWindow.setRange
    rw [if_neg (by tauto)]
  · intro hne
    have hch : f ≠ w.range.wFrom ∨ t ≠ w.range.wTo := by tauto
    refine ⟨setRange_range w f t hch, ?_, ?_⟩
    · intro k r hk1 hk2 hr
      have h1 : (w.setRange f t).data.getD (k - f) none = some r := by
        rw [setRange_data_getD w f t k hch (by omega), if_pos ⟨hk1, hk2⟩, hr]
      refine ⟨h1, ?_⟩
      rw [setRange_getAtIndex w f t k hch, if_pos ⟨hk1, hk2⟩, hr]
    · intro k hk
      rw [setRange_getAtIndex w f t k hch, if_neg hk]

/-- C1 witness: a concrete overlapping re-range keeping a populated row. -/
theorem c1_setRange_overlap_preservation_witness :
    (((MovingWindow.mk' 0 3).add ⟨1, 7, []⟩).setRange 1 4).getAtIndex 1 =
      some ⟨1, 7, []⟩ :=
  (((c1_setRange_overlap_preservation ((MovingWindow.mk' 0 3).add ⟨1, 7, []⟩) 1 4).2
      (by decide)).2.1 1 ⟨1, 7, []⟩ (by decide) (by decide) (by decide)).2

/-- C3 counterexample: `setRowCount` below the buffer length truncates the
buffer without touching the range, so `buffer.length = to - from` fails right
after a `setRowCount` mutation. -/
theorem c3_counterexample :
    ¬(((MovingWindow.mk' 0 10).setRowCount 5).data.length =
      ((MovingWindow.mk' 0 10).setRowCount 5).range.wTo -
        ((MovingWindow.mk' 0 10).setRowCount 5).range.wFrom) := by
  decide

/-- C3 (amended): the constructor establishes `buffer.length = to - from`, and
`add` and `setRange` preserve it; `setRowCount` may truncate the buffer below
`to - from` (see the counterexample), so the invariant holds after every
mutation other than a shrinking `setRowCount`. -/
theorem c3_buffer_length_invariant :
    (∀ f t, (MovingWindow.mk' f t).data.length = t - f) ∧
    (∀ (w : MovingWindow) (r : DataSourceRow),
        w.data.length = w.range.wTo - w.range.wFrom →
        (w.add r).data.length = (w.add r).range.wTo - (w.add r).range.wFrom) ∧
    (∀ (w : MovingWindow) (f t : Nat),
        w.data.length = w.range.wTo - w.range.wFrom →
        (w.setRange f t).data.length = t - f) := by
  refine ⟨?_, ?_, ?_⟩
  · intro f t
    simp [MovingWindow.mk']
  · intro w r h
    rw [add_range]
    unfold MovingWindow.add
    by_cases hin : w.range.isWithin r.index = true
    · rw [if_pos hin]
      change (jsArraySet w.data (r.index - w.range.wFrom) r).length = _
      rw [jsArraySet_length]
      have hfr : w.range.wFrom ≤ r.index ∧ r.index < w.range.wTo := by
        simpa [WindowRange.isWithin] using hin
      omega
    · rw [if_neg hin]
      exact h
  · intro w f t h
    by_cases hch : f ≠ w.range.wFrom ∨ t ≠ w.range.wTo
    · have hb : ∀ i ∈ List.range' (max w.range.wFrom f) (min w.range.wTo t - max w.range.wFrom f),
          i - f < (List.replicate (t - f) (none : Option DataSourceRow)).length := by
        intro i hi
        have hm := List.mem_range'_1.mp hi
        simp only [List.length_replicate]
        omega
      rw [setRange_data w f t hch, copyFold_length w f _ _ hb, List.length_replicate]
    · unfold MovingWindow.setRange
      rw [if_neg hch]
      push_neg at hch
      rw [h, hch.1, hch.2]

/-- C3 witness: a concrete `setRange` re-establishing the length invariant. -/
theorem c3_buffer_length_invariant_witness :
    ((MovingWindow.mk' 0 4).setRange 2 6).data.length = 6 - 2 :=
  c3_buffer_length_invariant.2.2 (MovingWindow.mk' 0 4) 2 6 (by decide)

/-- C7: `add` with a row whose index field lies outside `[range.from,
range.to)` leaves the whole window state unchanged and signals no error. -/
theorem c7_add_out_of_range (w : MovingWindow) (r : DataSourceRow)
    (h : ¬(w.range.wFrom ≤ r.index ∧ r.index < w.range.wTo)) :
    w.add r = w := by
  unfold MovingWindow.add
  rw [if_neg (by simpa [WindowRange.isWithin] using h)]

/-- C7 witness: adding an out-of-range row to a concrete window. -/
theorem c7_add_out_of_range_witness :
    (MovingWindow.mk' 0 3).add ⟨5, 0, []⟩ = MovingWindow.mk' 0 3 :=
  c7_add_out_of_range _ _ (by decide)

/-- C8: every reachable window state satisfies the slot-index invariant (a
populated slot `i` stores a row whose index field is `range.from + i`), and
consequently `getAtIndex k` only ever returns a row whose index field is
`k`. -/
theorem c8_slot_invariant_reachable (w : MovingWindow) (h : Reachable w) :
    SlotInvariant w ∧ ∀ k r, w.getAtIndex k = some r → r.index = k := by
  have hinv : SlotInvariant w := by
    induction h with
    | init f t => exact slotInvariant_mk f t
    | add w r _ ih => exact slotInvariant_add w r ih
    | setRange w f t _ ih => exact slotInvariant_setRange w f t ih
    | setRowCount w n _ ih => exact slotInvariant_setRowCount w n ih
  refine ⟨hinv, ?_⟩
  intro k r hk
  unfold MovingWindow.getAtIndex at hk
  by_cases hin : w.range.isWithin k = true
  · rw [if_pos hin] at hk
    have h1 := hinv _ _ hk
    have h2 : w.range.wFrom ≤ k ∧ k < w.range.wTo := by
      simpa [WindowRange.isWithin] using hin
    omega
  · rw [if_neg hin] at hk
    simp at hk

/-- C8 witness: the invariant at a concrete reachable state. -/
theorem c8_slot_invariant_reachable_witness :
    SlotInvariant ((MovingWindow.mk' 0 3).add ⟨1, 7, []⟩) :=
  (c8_slot_invariant_reachable ((MovingWindow.mk' 0 3).add ⟨1, 7, []⟩)
    (Reachable.add _ _ (Reachable.init 0 3))).1

/-- C10: each operation leaves the state components outside its contract
unchanged: `add` never modifies `range` or `rowCount`, `setRange` never
modifies `rowCount`, and `setRowCount` never modifies `range`. -/
theorem c10_frame_conditions :
    (∀ (w : MovingWindow) (r : DataSourceRow),
        (w.add r).range = w.range ∧ (w.add r).rowCount = w.rowCount) ∧
    (∀ (w : MovingWindow) (f t : Nat), (w.setRange f t).rowCount = w.rowCount) ∧
    (∀ (w : MovingWindow) (n : Nat), (w.setRowCount n).range = w.range) := by
  refine ⟨?_, ?_, ?_⟩
  · intro w r
    unfold MovingWindow.add
    split <;> exact ⟨rfl, rfl⟩
  · intro w f t
    unfold MovingWindow.setRange
    split <;> rfl
  · intro w n
    rfl

/-- C2 counterexample: a `viewport-update` carrying neither rows nor a numeric
size leaves the controller state entirely unchanged — in particular the dirty
flag stays `false`, so no re-materialization or republish happens. -/
theorem c2_counterexample :
    (datasourceMessageHandler ⟨MovingWindow.mk' 0 2, [], false⟩
        (.viewportUpdate none none)).hasUpdated = false ∧
    datasourceMessageHandler ⟨MovingWindow.mk' 0 2, [], false⟩
        (.viewportUpdate none none) = ⟨MovingWindow.mk' 0 2, [], false⟩ :=
  ⟨rfl, rfl⟩

/-- C2 (amended): a `viewport-update` with neither rows nor a numeric size is
a complete no-op — the handler's fallback branch is guarded by
`typeof message.size === "number"`; the defensive re-sort-and-republish (with
the dirty flag set) happens exactly when a numeric size is present and rows
are absent. -/
theorem c2_no_rows_no_size_is_noop :
    (∀ s : ControllerState,
        datasourceMessageHandler s (.viewportUpdate none none) = s) ∧
    (∀ (s : ControllerState) (n : Nat),
        datasourceMessageHandler s (.viewportUpdate (some n) none) =
          ⟨s.window.setRowCount n, materialize (s.window.setRowCount n), true⟩) :=
  ⟨fun _ => rfl, fun _ _ => rfl⟩

theorem runEvents_cons (s : FrameState) (e : ControllerEvent) (es : List ControllerEvent) :
    runEvents s (e :: es) = runEvents (step s e) es := rfl

/-- Effect of a block of ingest events: publishes and the mounted flag are
untouched, the window accumulates every row in order, and once at least one
ingestion happened the dirty flag is set and `data.current` is the
materialization of the accumulated window. -/
theorem runEvents_ingests (rss : List (List DataSourceRow)) :
    ∀ s : FrameState,
      (runEvents s (rss.map .ingest)).mounted = s.mounted ∧
      (runEvents s (rss.map .ingest)).published = s.published ∧
      (runEvents s (rss.map .ingest)).ctrl.window =
        rss.flatten.foldl (fun w r => w.add r) s.ctrl.window ∧
      (rss ≠ [] →
        (runEvents s (rss.map .ingest)).ctrl.hasUpdated = true ∧
        (runEvents s (rss.map .ingest)).ctrl.dataCurrent =
          materialize ((runEvents s (rss.map .ingest)).ctrl.window)) := by
  induction rss with
  | nil =>
    intro s
    exact ⟨rfl, rfl, rfl, fun h => absurd rfl h⟩
  | cons rs rss ih =>
    intro s
    rw [List.map_cons, runEvents_cons]
    obtain ⟨hm, hp, hw, hd⟩ := ih (step s (.ingest rs))
    refine ⟨hm.trans rfl, hp.trans rfl, ?_, ?_⟩
    · rw [hw, List.flatten_cons, List.foldl_append]
      rfl
    · intro _
      by_cases hrss : rss = []
      · subst hrss
        exact ⟨rfl, rfl⟩
      · exact hd hrss

/-- C9: ingestions between two frame-clock ticks each set the dirty flag and
publish nothing; the next tick then publishes exactly once, exposing the net
effect of all ingested rows; a tick that finds the dirty flag clear publishes
nothing and changes nothing; and the dirty flag is only ever cleared by a
tick that publishes. -/
theorem c9_single_refresh_per_tick :
    (∀ (s : FrameState) (rss : List (List DataSourceRow)),
        s.mounted = true → rss ≠ [] →
        (tickStep (runEvents s (rss.map .ingest))).published =
          s.published ++
            [materialize (rss.flatten.foldl (fun w r => w.add r) s.ctrl.window)] ∧
        (tickStep (runEvents s (rss.map .ingest))).ctrl.hasUpdated = false) ∧
    (∀ s : FrameState, s.ctrl.hasUpdated = false → tickStep s = s) ∧
    (∀ (s : FrameState) (e : ControllerEvent),
        s.ctrl.hasUpdated = true → (step s e).ctrl.hasUpdated = false →
        e = .tick ∧ (step s e).published = s.published ++ [s.ctrl.dataCurrent]) := by
  refine ⟨?_, ?_, ?_⟩
  · intro s rss hm hne
    obtain ⟨h1, h2, h3, h4⟩ := runEvents_ingests rss s
    obtain ⟨h5, h6⟩ := h4 hne
    constructor
    · simp only [tickStep, h1, hm, h5, if_true]
      rw [h2, h6, h3]
    · simp only [tickStep, h1, hm, h5, if_true]
  · intro s h
    simp [tickStep, h]
  · intro s e h1 h2
    cases e with
    | ingest rows =>
      exact absurd h2 (by simp [step, setData])
    | tick =>
      refine ⟨rfl, ?_⟩
      show (tickStep s).published = _
      by_cases hm : s.mounted = true
      · simp [tickStep, hm, h1]
      · exact absurd (show (tickStep s).ctrl.hasUpdated = true by
          simp [step] at h2 ⊢
          simp [tickStep, hm, h1]) (by rw [show (tickStep s) = step s .tick from rfl]; simp [h2])

/-- C9 witness: one ingestion then one tick, from a mounted clean state. -/
theorem c9_single_refresh_per_tick_witness :
    (tickStep (runEvents ⟨⟨MovingWindow.mk' 0 2, [], false⟩, true, []⟩
        ([[⟨0, 5, []⟩]].map .ingest))).published =
      [] ++ [materialize ([[(⟨0, 5, []⟩ : DataSourceRow)]].flatten.foldl
        (fun w r => w.add r) (⟨⟨MovingWindow.mk' 0 2, [], false⟩, true,
          ([] : List (List DataSourceRow))⟩ : FrameState).ctrl.window)] :=
  (c9_single_refresh_per_tick.1 ⟨⟨MovingWindow.mk' 0 2, [], false⟩, true, []⟩
    [[⟨0, 5, []⟩]] rfl (by simp)).1

theorem rowHeight_pos (p : ScrollParams) (hbh : 0 < p.bufferHeight) :
    (0 : ℚ) < (p.rowHeight : ℚ) := by
  have h0 : p.rowHeight ≠ 0 := by
    intro h0
    rw [ScrollParams.bufferHeight, h0, Nat.mul_zero] at hbh
    exact Nat.lt_irrefl 0 hbh
  exact_mod_cast Nat.pos_of_ne_zero h0

/-- The triggered forward branch of `handleScroll` on finite operands with a
positive buffer height: the anchor snaps down to a multiple of
`bufferHeight`, and the published first row index is the clamped
`max 0 (floor(anchor / rowHeight) - bufferCount)`. -/
theorem handleScroll_forward_spec (p : ScrollParams) (s : ScrollState) (a st : ℚ)
    (hbh : 0 < p.bufferHeight)
    (hs : s.scrollTopRef = .num a)
    (hfwd : a < st)
    (htrig : (p.bufferHeight : ℚ) < |st - a| ∨ st < (p.bufferHeight : ℚ)) :
    handleScroll p s (.num st) =
      ⟨.num ((⌊st / (p.bufferHeight : ℚ)⌋ : ℚ) * (p.bufferHeight : ℚ)),
       .num (if (p.dataRowCount : ℚ) <
              max 0 ((⌊(⌊st / (p.bufferHeight : ℚ)⌋ : ℚ) * (p.bufferHeight : ℚ) /
                  (p.rowHeight : ℚ)⌋ : ℚ) - (p.bufferCount : ℚ)) +
                (p.renderedRowsCount : ℚ)
            then (p.dataRowCount : ℚ) - (p.renderedRowsCount : ℚ)
            else max 0 ((⌊(⌊st / (p.bufferHeight : ℚ)⌋ : ℚ) * (p.bufferHeight : ℚ) /
                (p.rowHeight : ℚ)⌋ : ℚ) - (p.bufferCount : ℚ)))⟩ := by
  have hrh : (0 : ℚ) < (p.rowHeight : ℚ) := rowHeight_pos p hbh
  have hbhq : ((p.bufferHeight : ℚ)) ≠ 0 := by
    have : (0 : ℚ) < (p.bufferHeight : ℚ) := by exact_mod_cast hbh
    exact ne_of_gt this
  unfold handleScroll
  rw [hs]
  simp only [jsSub_num, jsGt_num, jsAbs_num, jsLt_num, jsDiv_num hbhq, jsFloor_num,
    jsMul_num, jsDiv_num (ne_of_gt hrh), jsAdd_num, jsMax_num]
  have hcond : (decide ((0:ℚ) < st - a) &&
      (decide ((p.bufferHeight : ℚ) < |st - a|) ||
        decide (st < (p.bufferHeight : ℚ)))) = true := by
    simp only [Bool.and_eq_true, Bool.or_eq_true, decide_eq_true_eq]
    refine ⟨by linarith, ?_⟩
    rcases htrig with h | h
    · exact Or.inl h
    · exact Or.inr h
  rw [if_pos hcond]
  simp only [decide_eq_true_eq]
  rw [apply_ite JSNum.num]

/-- With `bufferHeight = 0`, a forward scroll from the initial anchor 0 runs
`floor(scrollTop / 0) * 0 = Infinity * 0 = NaN` in JS: the committed anchor
and the published first row index both become `NaN`. -/
theorem handleScroll_zero_bh_forward (p : ScrollParams) (s : ScrollState) (st : ℚ)
    (hbh : p.bufferHeight = 0) (hs : s.scrollTopRef = .num 0) (hst : 0 < st) :
    handleScroll p s (.num st) = ⟨.nan, .nan⟩ := by
  unfold handleScroll
  rw [hs, hbh]
  simp only [Nat.cast_zero, jsSub_num, jsGt_num, jsAbs_num, jsLt_num, sub_zero]
  rw [jsDiv_num_zero_pos hst]
  simp only [jsFloor_posInf]
  have hcond : (decide ((0:ℚ) < st) &&
      (decide ((0:ℚ) < |st|) || decide (st < 0))) = true := by
    simp only [Bool.and_eq_true, Bool.or_eq_true, decide_eq_true_eq]
    exact ⟨hst, Or.inl (abs_pos.mpr (ne_of_gt hst))⟩
  rw [if_pos hcond]
  simp

/-- Once the anchor is `NaN`, every comparison against it is false, so no
branch of `handleScroll` triggers again: the state is frozen. -/
theorem handleScroll_nan_anchor (p : ScrollParams) (s : ScrollState) (st : ℚ)
    (hbh : p.bufferHeight = 0) (hs : s.scrollTopRef = .nan) (hst : 0 ≤ st) :
    handleScroll p s (.num st) = s := by
  unfold handleScroll
  rw [hs, hbh]
  simp only [Nat.cast_zero, jsSub_nan_right, jsGt_nan_left, jsAbs_nan,
    Bool.false_and, Bool.not_false, Bool.true_and, if_false]
  rw [jsLt_num]
  simp only [decide_eq_false_iff_not, not_lt.mpr hst, decide_eq_false (not_lt.mpr hst),
    Bool.or_false]
  rfl

/-- C4 counterexample: with `rowHeight = 0` (so `bufferHeight = 0`) a forward
scroll publishes `firstRowIndex = NaN`, not a well-defined numeric row
index. -/
theorem c4_counterexample :
    (handleScroll ⟨5, 100, 0, 10⟩ initialScrollState (.num 10)).firstRowIndex = .nan := by
  rw [handleScroll_zero_bh_forward ⟨5, 100, 0, 10⟩ initialScrollState 10 rfl rfl
    (by norm_num)]

/-- C4 (amended): with zero `bufferHeight` the handler still processes every
scroll event without error (it is a total function), but it does not degrade
to recomputing well-defined indices: the first forward scroll from the
initial anchor sets both the anchor and the published `firstRowIndex` to
`NaN`, after which no scroll event changes the state again. -/
theorem c4_zero_buffer_height_degenerates :
    (∀ (p : ScrollParams) (s : ScrollState) (st : ℚ),
        p.bufferHeight = 0 → s.scrollTopRef = .num 0 → 0 < st →
        handleScroll p s (.num st) = ⟨.nan, .nan⟩) ∧
    (∀ (p : ScrollParams) (s : ScrollState) (st : ℚ),
        p.bufferHeight = 0 → s.scrollTopRef = .nan → 0 ≤ st →
        handleScroll p s (.num st) = s) :=
  ⟨handleScroll_zero_bh_forward, handleScroll_nan_anchor⟩

/-- C4 witness: the degenerate behaviour at a concrete zero-row-height
configuration. -/
theorem c4_zero_buffer_height_degenerates_witness :
    handleScroll ⟨5, 100, 0, 10⟩ initialScrollState (.num 10) = ⟨.nan, .nan⟩ :=
  c4_zero_buffer_height_degenerates.1 ⟨5, 100, 0, 10⟩ initialScrollState 10 rfl rfl
    (by norm_num)

/-- C5: a triggered forward re-range snaps the anchor to
`floor(scrollTop / bufferHeight) * bufferHeight` and publishes the clamped
`max 0 (floor(anchor / rowHeight) - bufferCount)`; concretely, with
`rowHeight = 20`, `bufferCount = 5`, anchor 0 and `scrollTop = 250` the new
anchor is 200 and the published index is 5; and with `dataRowCount = 100`,
`renderedRowCount = 20` every published index `q` satisfies `0 ≤ q` and
`q + 20 ≤ 100`. -/
theorem c5_forward_snap :
    (∀ (p : ScrollParams) (s : ScrollState) (a st : ℚ),
        0 < p.bufferHeight → s.scrollTopRef = .num a → a < st →
        ((p.bufferHeight : ℚ) < |st - a| ∨ st < (p.bufferHeight : ℚ)) →
        handleScroll p s (.num st) =
          ⟨.num ((⌊st / (p.bufferHeight : ℚ)⌋ : ℚ) * (p.bufferHeight : ℚ)),
           .num (if (p.dataRowCount : ℚ) <
                  max 0 ((⌊(⌊st / (p.bufferHeight : ℚ)⌋ : ℚ) * (p.bufferHeight : ℚ) /
                      (p.rowHeight : ℚ)⌋ : ℚ) - (p.bufferCount : ℚ)) +
                    (p.renderedRowsCount : ℚ)
                then (p.dataRowCount : ℚ) - (p.renderedRowsCount : ℚ)
                else max 0 ((⌊(⌊st / (p.bufferHeight : ℚ)⌋ : ℚ) * (p.bufferHeight : ℚ) /
                    (p.rowHeight : ℚ)⌋ : ℚ) - (p.bufferCount : ℚ)))⟩) ∧
    (handleScroll ⟨5, 100, 20, 10⟩ initialScrollState (.num 250) =
      ⟨.num 200, .num 5⟩) ∧
    (∀ (p : ScrollParams) (s : ScrollState) (a st : ℚ),
        p.dataRowCount = 100 → p.renderedRowsCount = 20 →
        0 < p.bufferHeight → s.scrollTopRef = .num a → a < st →
        ((p.bufferHeight : ℚ) < |st - a| ∨ st < (p.bufferHeight : ℚ)) →
        ∃ q : ℚ, (handleScroll p s (.num st)).firstRowIndex = .num q ∧
          0 ≤ q ∧ q + 20 ≤ 100) := by
  refine ⟨handleScroll_forward_spec, ?_, ?_⟩
  · norm_num [handleScroll, initialScrollState, ScrollParams.bufferHeight,
      ScrollParams.renderedRowsCount,
      jsDiv_num (show (100:ℚ) ≠ 0 by norm_num), jsDiv_num (show (20:ℚ) ≠ 0 by norm_num)]
  · intro p s a st hdrc hrrc hbh hs hfwd htrig
    rw [handleScroll_forward_spec p s a st hbh hs hfwd htrig]
    rw [hdrc, hrrc]
    set f : ℚ := max 0 ((⌊(⌊st / (p.bufferHeight : ℚ)⌋ : ℚ) * (p.bufferHeight : ℚ) /
        (p.rowHeight : ℚ)⌋ : ℚ) - (p.bufferCount : ℚ)) with hf
    by_cases hcl : ((100:Nat) : ℚ) < f + ((20:Nat) : ℚ)
    · refine ⟨80, ?_, by norm_num, by norm_num⟩
      rw [if_pos hcl]
      norm_num
    · refine ⟨f, ?_, le_max_left 0 _, ?_⟩
      · rw [if_neg hcl]
      · push_neg at hcl
        have h20 : ((20:Nat) : ℚ) = 20 := by norm_num
        have h100 : ((100:Nat) : ℚ) = 100 := by norm_num
        linarith [hcl]

/-- C5 witness: the concrete snap-quantization event, with its published
index obeying the clamp bounds. -/
theorem c5_forward_snap_witness :
    ∃ q : ℚ, (handleScroll ⟨5, 100, 20, 10⟩ initialScrollState
        (.num 250)).firstRowIndex = .num q ∧ 0 ≤ q ∧ q + 20 ≤ 100 :=
  c5_forward_snap.2.2 ⟨5, 100, 20, 10⟩ initialScrollState 0 250 rfl rfl
    (by norm_num [ScrollParams.bufferHeight]) rfl (by norm_num)
    (by norm_num [ScrollParams.bufferHeight])

/-- C6: a scroll event with `|scrollTop - anchor| <= bufferHeight` and
`scrollTop >= bufferHeight` triggers neither branch, leaving the committed
anchor and `firstRowIndex` (hence `lastRowIndex`) unchanged. -/
theorem c6_hysteresis (p : ScrollParams) (s : ScrollState) (a st : ℚ)
    (hs : s.scrollTopRef = .num a)
    (h1 : |st - a| ≤ (p.bufferHeight : ℚ))
    (h2 : (p.bufferHeight : ℚ) ≤ st) :
    handleScroll p s (.num st) = s := by
  unfold handleScroll
  rw [hs]
  simp only [jsSub_num, jsGt_num, jsAbs_num, jsLt_num]
  have hor : (decide ((p.bufferHeight : ℚ) < |st - a|) ||
      decide (st < (p.bufferHeight : ℚ))) = false := by
    simp only [Bool.or_eq_false_iff, decide_eq_false_iff_not]
    exact ⟨not_lt.mpr h1, not_lt.mpr h2⟩
  rw [hor, Bool.and_false, Bool.and_false]
  rfl

/-- C6 witness: a 50-pixel jitter against a 100-pixel buffer height. -/
theorem c6_hysteresis_witness :
    handleScroll ⟨5, 100, 20, 10⟩ ⟨.num 150, .num 2⟩ (.num 200) =
      ⟨.num 150, .num 2⟩ :=
  c6_hysteresis ⟨5, 100, 20, 10⟩ ⟨.num 150, .num 2⟩ 150 200 rfl
    (by norm_num [ScrollParams.bufferHeight])
    (by norm_num [ScrollParams.bufferHeight])

end Vuu
